import Mathlib

/-!
Shallow embedding of the staged content-production pipeline core of
AutoCreatorX (src/gemini_complete_prototype.py): the ad-break scheduler
(Utilities.calculate_optimal_ad_breaks), trend filtering/scoring/selection
(IntelligenceCore._filter_and_score_trends, analyze_trends_and_select_topic),
the retry/backoff step handler (ErrorHandling.handle_step_error and its
caller loop), the failback resolver (ErrorHandling.handle_api_error),
monetization application (MonetizationManager.apply_monetization_strategies),
and the publish/feedback tail of AutoCreatorXOrchestrator.run_full_cycle.

Python machine model used throughout:
- Python ints are unbounded: embedded as Int (or Nat where the source value
  is a count).
- Python floats appear only in trend scores and in the proportional band
  bounds of the ad-break scheduler; scores are embedded as Rat, and the band
  bound int(d * p) is embedded as exact truncated division d * p100 / 100.
  For the only concrete duration any claim evaluates (d = 620) the IEEE
  double computation in the source yields exactly 155, 217, 372 and 434,
  the same values as the exact division.
- random.randint(lo, hi) is embedded as drawing the next value of an
  injected stream g : Nat -> Nat and mapping it into [lo, hi]; every
  realizable draw is some stream value, so a theorem quantified over g
  covers every run of the randomized source.
- A raised exception is embedded as an Except error / explicit error value.
-/

namespace AutoCreatorX

/-- Helper: the first list begins the second (character-exact). -/
def beginsWith : List Char → List Char → Bool
  | [], _ => true
  | _ :: _, [] => false
  | a :: as, b :: bs => a == b && beginsWith as bs

/-- Helper: the needle occurs contiguously somewhere in the haystack. -/
def occursIn (needle : List Char) : List Char → Bool
  | [] => beginsWith needle []
  | b :: bs => beginsWith needle (b :: bs) || occursIn needle bs

/-- Python substring test: models the expression needle in hay on Python str
values (character-exact containment). -/
def strContains (hay needle : String) : Bool :=
  occursIn needle.toList hay.toList

/-- Python str.lower(): lowercases each character (ASCII-faithful, which
covers every string the source and the claims compare). -/
def strToLower (s : String) : String :=
  ⟨s.data.map Char.toLower⟩

/-- Injected randomness: models random.randint(lo, hi) reading draw number k
of the stream g. The emod maps the raw draw into [lo, hi] when lo <= hi, so
for a fixed k every value randint can produce is realized by some g. -/
def randint (g : Nat → Nat) (k : Nat) (lo hi : Int) : Int :=
  lo + (g k : Int) % (hi - lo + 1)

/-! ## Utilities.calculate_optimal_ad_breaks (source lines 640-702) -/

/-- Clean-up scan of calculate_optimal_ad_breaks (source lines 690-699):
walks the deduplicated sorted candidate list, keeping a break b only when
60 < b < duration - 60 and b is at least 120s after the last kept break
(last_break_time starts at 0). -/
def keepSpaced (dur : Int) (last : Int) : List Int → List Int
  | [] => []
  | b :: rest =>
    if 60 < b ∧ b < dur - 60 ∧ 120 ≤ b - last then
      b :: keepSpaced dur b rest
    else
      keepSpaced dur last rest

/-- Models Python sorted(list(set(breaks))) (source line 689): the ascending
list of the distinct candidate values. List.dedup keeps one copy of each
value and insertionSort orders them; since the result is determined by the
set of values, this coincides with the source expression. -/
def sortedDedup (l : List Int) : List Int :=
  List.insertionSort (· ≤ ·) l.dedup

/-- Proportional band bound of the ai_optimized branch: the source computes
int(video_duration_seconds * (p100 / 100)) in IEEE doubles; embedded as the
exact truncated division. For the claims' concrete duration 620 both agree
(155, 217, 372, 434). -/
def bandBound (d : Int) (p100 : Int) : Int :=
  d * p100 / 100

/-- Candidate breaks of the ai_optimized / auto_optimized branch (source
lines 662-672): one draw in the 25-35% band when d >= 300, one in the
60-70% band when d >= 600, and a third in the 80-90% band when d >= 900
kept only when it clears the last candidate by more than 120s. Draw
indices follow the order the source calls random.randint. -/
def aiCandidates (g : Nat → Nat) (d : Int) : List Int :=
  let b1 : List Int :=
    if 300 ≤ d then [randint g 0 (bandBound d 25) (bandBound d 35)] else []
  let b2 : List Int :=
    if 600 ≤ d then
      b1 ++ [randint g b1.length (bandBound d 60) (bandBound d 70)]
    else b1
  if 900 ≤ d then
    let third := randint g b2.length (bandBound d 80) (bandBound d 90)
    match b2.getLast? with
    | some lastB => if lastB + 120 < third then b2 ++ [third] else b2
    | none => b2
  else b2

/-- While-loop of the manual_timed branch (source lines 679-682): appends
current and advances by interval while current < d - 60. The source draws
interval from randint(300, 420), so interval is always positive; the guard
0 < interval records that fact for termination and never fires false in
the embedding's use. -/
def manualLoop (d interval current : Int) : List Int :=
  if _h : 0 < interval ∧ current < d - 60 then
    current :: manualLoop d interval (current + interval)
  else []
termination_by (d - 60 - current).toNat
decreasing_by
  simp_wf
  omega

/-- Candidate breaks of the manual_timed branch (source lines 675-682). -/
def manualCandidates (g : Nat → Nat) (d : Int) : List Int :=
  let interval := randint g 0 300 420
  manualLoop d interval interval

/-- Utilities.calculate_optimal_ad_breaks (source lines 640-702).
script_structure is read only for a debug log line in the source (the
analysis is a placeholder), so it is carried but unused. Strategy matching
lowercases the strategy and tests substrings, as the source does. -/
def calculate_optimal_ad_breaks (g : Nat → Nat) (video_duration_seconds : Int)
    (strategy : String) (script_structure : Option (List String)) : List Int :=
  let _ := script_structure
  if video_duration_seconds < 480 then []
  else
    let ns := strToLower strategy
    let breaks :=
      if strContains ns "ai_optimized" || strContains ns "auto_optimized" then
        aiCandidates g video_duration_seconds
      else if strContains ns "manual_timed" then
        manualCandidates g video_duration_seconds
      else []
    if breaks.isEmpty then breaks
    else keepSpaced video_duration_seconds 0 (sortedDedup breaks)

/-! ## ErrorHandling.handle_step_error (source lines 779-839) and its
caller retry loop (IntelligenceCore.analyze_trends_and_select_topic,
source lines 1620-1653) -/

/-- Return value and sleep of ErrorHandling.handle_step_error: when
attempt < max_retries it sleeps retry_delay_minutes * 60 * 2^(attempt-1)
seconds and returns True (retry); otherwise it returns False (permanent
failure) without sleeping. -/
def handle_step_error (attempt max_retries retry_delay_minutes : Nat) :
    Bool × Option Nat :=
  if attempt < max_retries then
    (true, some (retry_delay_minutes * 60 * 2 ^ (attempt - 1)))
  else
    (false, none)

/-- Outcome of a retried step. -/
inductive StepOutcome (E A : Type) where
  | success (a : A)
  | permanentFailure (e : Option E)
  deriving DecidableEq

/-- Observable trace of a retried step: how many times the action ran,
the sleeps performed (in seconds, in order), and the outcome. -/
structure RetryTrace (E A : Type) where
  calls : Nat
  sleeps : List Nat
  outcome : StepOutcome E A
  deriving DecidableEq

/-- Caller retry loop around handle_step_error (source lines 1620-1653):
while attempt <= max_retries, run the action; on success stop; on failure
consult handle_step_error, which sleeps delay*60*2^(attempt-1) and answers
True exactly when attempt < max_retries, else the step fails permanently
with the last error and no further sleep. The action is indexed by the
attempt number so that any sequence of per-attempt results is expressible.
permanentFailure none records the degenerate entry attempt > max_retries
where the loop body never runs. -/
def execute_step_with_retries {E A : Type} (action : Nat → Except E A)
    (max_retries retry_delay attempt : Nat) : RetryTrace E A :=
  if _h : attempt ≤ max_retries then
    match action attempt with
    | .ok a => ⟨1, [], .success a⟩
    | .error e =>
      if _h2 : (handle_step_error attempt max_retries retry_delay).1 = true then
        let rest := execute_step_with_retries action max_retries retry_delay (attempt + 1)
        ⟨rest.calls + 1,
          (handle_step_error attempt max_retries retry_delay).2.toList ++ rest.sleeps,
          rest.outcome⟩
      else ⟨1, [], .permanentFailure (some e)⟩
  else ⟨0, [], .permanentFailure none⟩
termination_by max_retries + 1 - attempt
decreasing_by
  simp_wf
  unfold handle_step_error at _h2
  by_cases hlt : attempt < max_retries
  · omega
  · rw [if_neg hlt] at _h2
    simp at _h2

/-! ## ErrorHandling.handle_api_error (source lines 841-920) -/

/-- Exception leaving handle_api_error: either the original error object
re-raised by the final else-branch, or the TypeError Python raises when the
configured strategy lookup returned None and the code evaluates the
membership test s in None. -/
inductive PyErr (E : Type) where
  | orig (e : E)
  | typeError
  deriving DecidableEq

/-- Result of handle_api_error: one of the simulated failback payloads, the
None returned for skip_step, or a raised exception. The payload strings
mirror the simulated dicts the source returns. -/
inductive FailbackOutcome (E : Type) where
  | backupModel (api : String)
  | cachedFallback (api : String)
  | skipStep
  | simplerProcess (api : String)
  | raised (e : PyErr E)
  deriving DecidableEq

/-- ErrorHandling.handle_api_error (source lines 841-920): looks up
failback_config_key in config.safety_systems failback_mechanisms via
dict.get (None when absent) and dispatches on the strategy string exactly
as the source's if/elif chain does, equality tests and substring tests
included. A None strategy reaches the very first substring test
("try_backup_model_then_simpler_model" in failback_strategy_name), which
in Python raises TypeError (argument of type NoneType is not iterable);
its own docstring instead promises that the original error is re-raised
when no effective failback strategy is defined. -/
def handle_api_error {E : Type} (api_name : String) (error : E)
    (failback_config_key : String)
    (failback_mechanisms : List (String × String)) : FailbackOutcome E :=
  match failback_mechanisms.lookup failback_config_key with
  | none => .raised .typeError
  | some s =>
    if s == "try_backup_model_or_provider" ||
        strContains s "try_backup_model_then_simpler_model" then
      .backupModel api_name
    else if s == "use_cached_or_fallback_data" ||
        strContains s "use_cached_or_fallback_topics" ||
        strContains s "use_internal_library_only" ||
        strContains s "use_internal_library_then_lower_quality_stock" ||
        strContains s "use_fallback_voice_then_standard_os_tts" then
      .cachedFallback api_name
    else if s == "skip_step" then
      .skipStep
    else if s == "use_simpler_template_or_local_ffmpeg_basic" then
      .simplerProcess api_name
    else
      .raised (.orig error)

/-- Default config.safety_systems failback_mechanisms table (source lines
311-317). It has no key of the form platform_upload_failback. -/
def default_failback_mechanisms : List (String × String) :=
  [("trend_analysis", "use_cached_or_fallback_topics_high_priority"),
   ("llm_calls", "try_backup_model_then_simpler_model"),
   ("media_asset_procurement", "use_internal_library_then_lower_quality_stock"),
   ("tts_generation", "use_fallback_voice_then_standard_os_tts"),
   ("video_composition", "use_simpler_template_or_local_ffmpeg_basic")]

/-! ## PlatformOperations.upload_content_to_platforms (source lines
2053-2131) and the publish/feedback tail of
AutoCreatorXOrchestrator.run_full_cycle (source lines 2309-2330) -/

/-- Per-platform entry of upload_statuses (source lines 2102, 2110, 2117,
2122). -/
inductive UploadStatus where
  | success (videoId : String)
  | notImplemented
  | failed (errMsg : String)
  deriving DecidableEq

/-- PlatformOperations.upload_content_to_platforms (source lines 2053-2131),
restricted to its control flow: metadata plumbing (lines 2056-2094) builds
the upload parameters and does not affect which branch runs, so it is not
carried. uploadAct is the platform upload call for youtube/tiktok.
Modelled from the spec: PlatformPublisher.upload(video, metadata, platform)
-> PublishReceipt, fails with PublishError — in the source the real API call
is commented out and replaced by an always-successful simulation inside the
try-block, and the except-handler (lines 2119-2122) exists for the real
call's failures. On a raised upload error the handler calls handle_api_error
with key platform_upload_failback; an exception raised there (TypeError on
an absent key, or the re-raised original error) propagates out of the
except-handler and out of this function, which has no outer handler.
Disabled platforms are skipped with no status entry. -/
def upload_content_to_platforms {E : Type}
    (failback_mechanisms : List (String × String))
    (uploadAct : String → Except E String) (errStr : E → String) :
    List (String × Bool) → Except (PyErr E) (List (String × UploadStatus))
  | [] => .ok []
  | (platform_name, enabled) :: rest =>
    if enabled then
      let step : Except (PyErr E) UploadStatus :=
        if platform_name == "youtube" || platform_name == "tiktok" then
          match uploadAct platform_name with
          | .ok video_id => .ok (.success video_id)
          | .error e =>
            match handle_api_error (platform_name ++ "_upload") e
                (platform_name ++ "_upload_failback") failback_mechanisms with
            | .raised pe => .error pe
            | _ => .ok (.failed (errStr e))
        else
          .ok .notImplemented
      match step with
      | .error pe => .error pe
      | .ok st =>
        match upload_content_to_platforms failback_mechanisms uploadAct errStr rest with
        | .error pe => .error pe
        | .ok tail => .ok ((platform_name, st) :: tail)
    else
      upload_content_to_platforms failback_mechanisms uploadAct errStr rest

/-- Observable outcome of run_full_cycle from the upload step on (source
lines 2309-2330): the recorded statuses, whether any platform succeeded
(the source only logs when none did and still falls through), whether the
feedback stage was attempted, and the True return value. -/
structure CycleTail where
  upload_statuses : List (String × UploadStatus)
  any_success : Bool
  feedback_attempted : Bool
  returned_true : Bool
  deriving DecidableEq

/-- Steps 4-5 of AutoCreatorXOrchestrator.run_full_cycle (source lines
2309-2330): runs the upload stage — an exception it raises propagates,
there is no surrounding handler — then, when no platform succeeded, only
logs and falls through, attempts the feedback stage when it is enabled,
and returns True. -/
def run_cycle_publish_tail {E : Type}
    (failback_mechanisms : List (String × String))
    (uploadAct : String → Except E String) (errStr : E → String)
    (platforms : List (String × Bool)) (feedback_enabled : Bool) :
    Except (PyErr E) CycleTail :=
  match upload_content_to_platforms failback_mechanisms uploadAct errStr platforms with
  | .error pe => .error pe
  | .ok statuses =>
    .ok { upload_statuses := statuses,
          any_success := statuses.any (fun p =>
            match p.2 with
            | .success _ => true
            | _ => false),
          feedback_attempted := feedback_enabled,
          returned_true := true }

/-! ## IntelligenceCore._filter_and_score_trends (source lines 1685-1727)
and analyze_trends_and_select_topic (source lines 1609-1683) -/

/-- Trend dict as the pipeline uses it. raw_virality and
raw_sentiment_score are read with dict.get(key, 0) in the source; a dict
lacking the key behaves as the field holding 0. The three fields the
scoring pass writes in place (sentiment_analysis as its
positive/neutral/negative triple, predicted_longevity_days, final_score)
are optional and none until written. Scores are Rat: the source computes
them in Python floats, whose rounding no claim depends on. -/
structure Trend where
  topic_id : String
  title : String
  source : String
  raw_virality : Rat
  raw_sentiment_score : Rat
  sentiment_analysis : Option (Rat × Rat × Rat)
  predicted_longevity_days : Option Int
  final_score : Option Rat
  deriving DecidableEq

/-- Slice of config.trend_analysis consumed by filtering and scoring
(source lines 154-163 defaults: min 70, thresholds 0.6/0.5, exclusions
controversy/scandal/politics/explicit, time-series enabled). -/
structure TrendAnalysisConfig where
  min_virality_score : Rat
  exclude_topics_containing : List String
  niche_focus_keywords : List String
  sentiment_positive_threshold : Rat
  sentiment_negative_threshold : Rat
  time_series_analysis_enabled : Bool

/-- Sentiment map of the scoring pass (source lines 1712-1715):
(positive, neutral, negative), zero except the branch taken. When both
thresholds are 0 the source's neutral branch divides by zero
(ZeroDivisionError); Rat division returns 0 there and no claim depends on
that configuration. -/
def sentimentMap (cfg : TrendAnalysisConfig) (raw : Rat) : Rat × Rat × Rat :=
  if cfg.sentiment_positive_threshold < raw then
    (raw, 0, 0)
  else if raw < -cfg.sentiment_negative_threshold then
    (0, 0, |raw|)
  else
    (0, 1 - |raw| / max cfg.sentiment_positive_threshold
        cfg.sentiment_negative_threshold, 0)

/-- The three continue-filters of _filter_and_score_trends (source lines
1693-1708): exclusion keywords tested as raw substrings of the lowercased
title (the keyword itself is not lowercased, unlike the niche keywords on
line 1700), then the niche filter when niche keywords are configured, then
the minimum-virality filter. -/
def passes_filters (cfg : TrendAnalysisConfig) (t : Trend) : Bool :=
  let title_lower := strToLower t.title
  if cfg.exclude_topics_containing.any (fun ex_word => strContains title_lower ex_word) then
    false
  else if !cfg.niche_focus_keywords.isEmpty &&
      !cfg.niche_focus_keywords.any
        (fun niche_kw => strContains title_lower (strToLower niche_kw)) then
    false
  else if t.raw_virality < cfg.min_virality_score then
    false
  else
    true

/-- In-place enrichment of a kept trend (source lines 1710-1723): writes
the sentiment map and, with time-series analysis enabled, draws
predicted_longevity_days from randint(3, 14) (stream index k) and scales
the final score by days / 7. -/
def score_trend (cfg : TrendAnalysisConfig) (g : Nat → Nat) (k : Nat)
    (t : Trend) : Trend :=
  let smap := sentimentMap cfg t.raw_sentiment_score
  if cfg.time_series_analysis_enabled then
    let days := randint g k 3 14
    { t with sentiment_analysis := some smap,
             predicted_longevity_days := some days,
             final_score := some (t.raw_virality * (1 + smap.1 - smap.2.2) *
               ((days : Rat) / 7)) }
  else
    { t with sentiment_analysis := some smap,
             final_score := some (t.raw_virality * (1 + smap.1 - smap.2.2)) }

/-- Loop body of _filter_and_score_trends: k counts the randint draws
consumed so far (one per kept trend, only when time-series analysis is
enabled). -/
def filter_and_score_go (cfg : TrendAnalysisConfig) (g : Nat → Nat) :
    List Trend → Nat → List Trend
  | [], _ => []
  | t :: rest, k =>
    if passes_filters cfg t then
      score_trend cfg g k t ::
        filter_and_score_go cfg g rest
          (k + if cfg.time_series_analysis_enabled then 1 else 0)
    else
      filter_and_score_go cfg g rest k

/-- IntelligenceCore._filter_and_score_trends (source lines 1685-1727). -/
def filter_and_score_trends (cfg : TrendAnalysisConfig) (g : Nat → Nat)
    (trends : List Trend) : List Trend :=
  filter_and_score_go cfg g trends 0

/-- Forgets the three fields the scoring pass writes, recovering the
as-fetched candidate identity. -/
def stripComputed (t : Trend) : Trend :=
  { t with sentiment_analysis := none,
           predicted_longevity_days := none,
           final_score := none }

/-- Result of analyze_trends_and_select_topic: the two hard-coded fallback
topic dicts (fallback_topic_001 on disabled analysis, line 1614;
fallback_topic_002 on an empty fetch with a use_cached_or_fallback_topics
strategy, line 1661) or the selected scored trend. -/
inductive TopicSelection where
  | fallbackTrendAnalysisDisabled
  | fallbackNoTrendsFound
  | selected (t : Trend)
  deriving DecidableEq

/-- Winner pick of analyze_trends_and_select_topic (source line 1672):
Python max with key final_score (missing key read as 0), which keeps the
earliest element among ties; none on the empty list, which the source
guards with its own early return None. -/
def select_winner : List Trend → Option Trend
  | [] => none
  | t :: ts =>
    some (ts.foldl
      (fun best x =>
        if best.final_score.getD 0 < x.final_score.getD 0 then x else best) t)

/-- Selection phase of IntelligenceCore.analyze_trends_and_select_topic
(source lines 1609-1683) as a function of the aggregated fetch result:
the per-source fetch loop (lines 1620-1653) produces simulated random
trends, so all_potential_trends is carried as a parameter covering every
aggregate the loop can build. Disabled analysis returns a fallback topic;
an empty aggregate returns the second fallback topic only when the
configured trend_analysis failback strategy contains
use_cached_or_fallback_topics, else None; an empty viable list after
filtering returns None (source line 1669: return None, not a fallback);
otherwise the max-scoring trend is selected. File persistence (lines
1676-1681) does not affect the returned value. -/
def analyze_trends_and_select_topic (cfg : TrendAnalysisConfig) (g : Nat → Nat)
    (trend_analysis_enabled : Bool) (failback_strategy : String)
    (all_potential_trends : List Trend) : Option TopicSelection :=
  if !trend_analysis_enabled then
    some .fallbackTrendAnalysisDisabled
  else if all_potential_trends.isEmpty then
    if strContains failback_strategy "use_cached_or_fallback_topics" then
      some .fallbackNoTrendsFound
    else
      none
  else
    let viable := filter_and_score_trends cfg g all_potential_trends
    match select_winner viable with
    | none => none
    | some t => some (.selected t)

/-- Step 1 guard of AutoCreatorXOrchestrator.run_full_cycle (source lines
2252-2255): if no topic was selected the cycle ends immediately with
return False. -/
def run_cycle_step1_aborts (sel : Option TopicSelection) : Bool :=
  sel.isNone

/-! ## MonetizationManager.apply_monetization_strategies (source lines
1190-1296) -/

/-- MonetizationManager.apply_monetization_strategies (source lines
1190-1296), over abstract script/metadata types. The four strategy bodies
are carried as function parameters standing for the source's ad-break
metadata update (lines 1244-1270), _incorporate_affiliate_links,
_incorporate_digital_product_promotion and _apply_sponsorship_tags, so
every theorem about this definition holds for whatever those bodies do.
Guards mirror the source: list membership of the strategy name plus the
per-strategy enabled flag; the ad-break branch additionally needs the
platform's monetization enabled and a truthy (non-empty) ad_break_strategy.
The source's dict .copy() calls become value passing. -/
def apply_monetization_strategies {S M : Type}
    (monetization_enabled : Bool) (strategies : List String)
    (ad_revenue_optimization_enabled : Bool)
    (platform_monetization_enabled : Bool)
    (platform_ad_break_strategy : Option String)
    (affiliate_marketing_enabled : Bool)
    (digital_product_promotion_enabled : Bool)
    (sponsorship_tags_enabled : Bool)
    (incorporate_ad_breaks : M → M)
    (incorporate_affiliate_links : S → M → S × M)
    (incorporate_digital_product_promotion : S → M → S × M)
    (apply_sponsorship_tags : M → M)
    (script_object : S) (metadata_object : M) : S × M :=
  if !monetization_enabled then
    (script_object, metadata_object)
  else
    let modified_script := script_object
    let modified_metadata := metadata_object
    let strategy_truthy :=
      match platform_ad_break_strategy with
      | none => false
      | some s => !s.isEmpty
    let modified_metadata :=
      if strategies.contains "ad_revenue" && ad_revenue_optimization_enabled then
        if platform_monetization_enabled && strategy_truthy then
          incorporate_ad_breaks modified_metadata
        else modified_metadata
      else modified_metadata
    let sm :=
      if strategies.contains "affiliate_marketing" && affiliate_marketing_enabled then
        incorporate_affiliate_links modified_script modified_metadata
      else (modified_script, modified_metadata)
    let sm :=
      if strategies.contains "digital_product_promotion" &&
          digital_product_promotion_enabled then
        incorporate_digital_product_promotion sm.1 sm.2
      else sm
    let final_metadata :=
      if strategies.contains "sponsorship_tags" && sponsorship_tags_enabled then
        apply_sponsorship_tags sm.2
      else sm.2
    (sm.1, final_metadata)

/-- Exclusion config for the C5 counterexample: the default thresholds, no
niche keywords, no virality bar, time-series analysis off, and the
mixed-case excluded keyword Crypto. -/
def cfgC5 : TrendAnalysisConfig :=
  ⟨0, ["Crypto"], [], 6/10, 5/10, false⟩

/-- Fetched candidate for the C5 counterexample: a lowercase title matching
the excluded keyword case-insensitively. -/
def trendC5 : Trend :=
  ⟨"t1", "crypto crash incoming", "sourceA", 80, 0, none, none, none⟩

/-- Exclusion config for the C5 amended witness: lowercase excluded keyword
ban, no niche keywords, no virality bar, time-series analysis off. -/
def cfgC5W : TrendAnalysisConfig :=
  ⟨0, ["ban"], [], 1, 1, false⟩

/-- Kept candidate for the C5 amended witness. -/
def trendC5W : Trend :=
  ⟨"t2", "good topic", "sourceA", 80, 0, none, none, none⟩

/-- Config for the C6 counterexample: the default virality bar 70 and
default thresholds, time-series analysis off. -/
def cfgC6 : TrendAnalysisConfig :=
  ⟨70, [], [], 6/10, 5/10, false⟩

/-- Fetched candidate for the C6 counterexample: below the virality bar, so
the scored list handed to winner selection is empty. -/
def trendC6 : Trend :=
  ⟨"t3", "Hot Topic from NewsAPI", "NewsAPI", 10, 0, none, none, none⟩

theorem randint_bounds (g : Nat → Nat) (k : Nat) {lo hi : Int}
    (h : lo ≤ hi) : lo ≤ randint g k lo hi ∧ randint g k lo hi ≤ hi := by
  unfold randint
  have hpos : (0 : Int) < hi - lo + 1 := by omega
  have h1 : 0 ≤ (g k : Int) % (hi - lo + 1) :=
    Int.emod_nonneg _ (by omega)
  have h2 : (g k : Int) % (hi - lo + 1) < hi - lo + 1 :=
    Int.emod_lt_of_pos _ hpos
  omega

/-- Every element kept by the clean-up scan lies strictly between 60 and
dur - 60, the first kept element is at least last + 120, and consecutive
kept elements are at least 120 apart (hence strictly increasing). -/
theorem keepSpaced_invariant (dur : Int) :
    ∀ (l : List Int) (last : Int),
      (∀ e ∈ keepSpaced dur last l, 60 < e ∧ e < dur - 60) ∧
      (∀ f, (keepSpaced dur last l).head? = some f → last + 120 ≤ f) ∧
      List.Chain' (fun a b => a + 120 ≤ b) (keepSpaced dur last l) := by
  intro l
  induction l with
  | nil =>
    intro last
    refine ⟨by simp [keepSpaced], by simp [keepSpaced], by simp [keepSpaced]⟩
  | cons b rest ih =>
    intro last
    by_cases hc : 60 < b ∧ b < dur - 60 ∧ 120 ≤ b - last
    · have hrec := ih b
      refine ⟨?_, ?_, ?_⟩
      · intro e he
        rw [keepSpaced, if_pos hc] at he
        rcases List.mem_cons.mp he with h | h
        · exact h ▸ ⟨hc.1, hc.2.1⟩
        · exact hrec.1 e h
      · intro f hf
        rw [keepSpaced, if_pos hc] at hf
        simp only [List.head?_cons, Option.some.injEq] at hf
        omega
      · rw [keepSpaced, if_pos hc]
        rcases hnext : keepSpaced dur b rest with _ | ⟨f, tail⟩
        · simp
        · refine List.chain'_cons.mpr ⟨?_, ?_⟩
          · have := hrec.2.1 f
            rw [hnext] at this
            simpa using this rfl
          · have := hrec.2.2
            rwa [hnext] at this
    · have hrec := ih last
      rw [keepSpaced, if_neg hc]
      exact hrec

/-- Shape of calculate_optimal_ad_breaks: the result is either empty or the
clean-up scan applied (from last_break_time 0) to some candidate list. -/
theorem calculate_shape (g : Nat → Nat) (dur : Int) (strategy : String)
    (hint : Option (List String)) :
    calculate_optimal_ad_breaks g dur strategy hint = [] ∨
      ∃ bs, calculate_optimal_ad_breaks g dur strategy hint =
        keepSpaced dur 0 (sortedDedup bs) := by
  by_cases hd : dur < 480
  · left; simp [calculate_optimal_ad_breaks, hd]
  · simp only [calculate_optimal_ad_breaks, if_neg hd]
    set bs := if strContains (strToLower strategy) "ai_optimized" ||
          strContains (strToLower strategy) "auto_optimized" then
        aiCandidates g dur
      else if strContains (strToLower strategy) "manual_timed" then
        manualCandidates g dur
      else [] with hbs
    by_cases hb : bs.isEmpty
    · left
      rw [if_pos hb]
      exact List.isEmpty_iff.mp hb
    · right
      exact ⟨bs, by rw [if_neg hb]⟩

/-- C3: for every duration, strategy, structure hint and random stream, a
non-empty result of calculate_optimal_ad_breaks is strictly increasing with
consecutive elements at least 120 apart, and every element e satisfies
60 <= e <= duration - 60. -/
theorem C3_ad_break_invariant (g : Nat → Nat) (dur : Int) (strategy : String)
    (hint : Option (List String))
    (hne : calculate_optimal_ad_breaks g dur strategy hint ≠ []) :
    List.Chain' (fun a b => a < b ∧ a + 120 ≤ b)
        (calculate_optimal_ad_breaks g dur strategy hint) ∧
      ∀ e ∈ calculate_optimal_ad_breaks g dur strategy hint,
        60 ≤ e ∧ e ≤ dur - 60 := by
  rcases calculate_shape g dur strategy hint with h | ⟨bs, h⟩
  · exact absurd h hne
  · rw [h]
    have inv := keepSpaced_invariant dur (sortedDedup bs) 0
    refine ⟨List.Chain'.imp ?_ inv.2.2, ?_⟩
    · intro a b hab
      exact ⟨by omega, hab⟩
    · intro e he
      have := inv.1 e he
      omega

/-- Witness for C3 at the all-zero stream and the 620s ai_optimized_flow
input, whose result is the non-empty list [155, 372]. -/
theorem C3_ad_break_invariant_witness :
    calculate_optimal_ad_breaks (fun _ => 0) 620 "ai_optimized_flow" none ≠ [] ∧
      (List.Chain' (fun a b => a < b ∧ a + 120 ≤ b)
          (calculate_optimal_ad_breaks (fun _ => 0) 620 "ai_optimized_flow" none) ∧
        ∀ e ∈ calculate_optimal_ad_breaks (fun _ => 0) 620 "ai_optimized_flow" none,
          60 ≤ e ∧ e ≤ 620 - 60) :=
  ⟨by decide,
    C3_ad_break_invariant (fun _ => 0) 620 "ai_optimized_flow" none (by decide)⟩

/-- C8: for every random stream, every duration strictly below 480 seconds,
every strategy (known or unknown) and every structure hint,
calculate_optimal_ad_breaks returns the empty list (source lines 641-645). -/
theorem C8_short_video_no_breaks (g : Nat → Nat) (dur : Int) (strategy : String)
    (hint : Option (List String)) (h : dur < 480) :
    calculate_optimal_ad_breaks g dur strategy hint = [] := by
  simp [calculate_optimal_ad_breaks, h]

/-- Witness for C8 at the concrete input dur = 300, an ai strategy and the
all-zero stream. -/
theorem C8_short_video_no_breaks_witness :
    (300 : Int) < 480 ∧
      calculate_optimal_ad_breaks (fun _ => 0) 300 "ai_optimized_flow" none = [] :=
  ⟨by norm_num,
    C8_short_video_no_breaks (fun _ => 0) 300 "ai_optimized_flow" none (by norm_num)⟩

/-- C7: for every random stream, calculate_optimal_ad_breaks at duration 620
with strategy ai_optimized_flow and no structure hint returns exactly two
breaks, the first in [155, 217] and the second in [372, 434]. -/
theorem C7_scenario_620 (g : Nat → Nat) :
    ∃ a b, calculate_optimal_ad_breaks g 620 "ai_optimized_flow" none = [a, b] ∧
      155 ≤ a ∧ a ≤ 217 ∧ 372 ≤ b ∧ b ≤ 434 := by
  have hr0 := @randint_bounds g 0 155 217 (by norm_num)
  have hr1 := @randint_bounds g 1 372 434 (by norm_num)
  set r0 := randint g 0 155 217 with hr0def
  set r1 := randint g 1 372 434 with hr1def
  refine ⟨r0, r1, ?_, hr0.1, hr0.2, hr1.1, hr1.2⟩
  have hstrat : strContains (strToLower "ai_optimized_flow") "ai_optimized" = true := by
    decide
  have hcand : aiCandidates g 620 = [r0, r1] := by
    have h25 : bandBound 620 25 = 155 := by decide
    have h35 : bandBound 620 35 = 217 := by decide
    have h60 : bandBound 620 60 = 372 := by decide
    have h70 : bandBound 620 70 = 434 := by decide
    simp only [aiCandidates, h25, h35, h60, h70]
    norm_num
  have hdd : sortedDedup [r0, r1] = [r0, r1] := by
    have hne01 : r0 ∉ ([r1] : List Int) := by
      simp only [List.mem_singleton]
      omega
    unfold sortedDedup
    rw [List.dedup_cons_of_not_mem hne01,
      List.dedup_cons_of_not_mem (List.not_mem_nil r1), List.dedup_nil]
    simp [List.insertionSort, List.orderedInsert, show r0 ≤ r1 by omega]
  have hscan : keepSpaced 620 0 [r0, r1] = [r0, r1] := by
    rw [keepSpaced, if_pos (by omega : 60 < r0 ∧ r0 < 620 - 60 ∧ 120 ≤ r0 - 0)]
    rw [keepSpaced, if_pos (by omega : 60 < r1 ∧ r1 < 620 - 60 ∧ 120 ≤ r1 - r0)]
    rw [keepSpaced]
  simp only [calculate_optimal_ad_breaks, hstrat]
  norm_num [hcand, hdd, hscan]

/-- C4: with max_retries = 3 and a base delay of 1 minute, a persistently
failing action is called exactly 3 times, the sleeps between attempts are
60s then 120s (baseDelay * 2^(attempt-1), no jitter), and after the third
failure the step reports permanent failure carrying the last error, with
no further sleep. -/
theorem C4_retry_three_attempts {E A : Type} (action : Nat → Except E A)
    (hfail : ∀ n, ∃ e, action n = .error e) :
    (execute_step_with_retries action 3 1 1).calls = 3 ∧
      (execute_step_with_retries action 3 1 1).sleeps = [60, 120] ∧
      ∃ e, action 3 = .error e ∧
        (execute_step_with_retries action 3 1 1).outcome = .permanentFailure (some e) := by
  obtain ⟨e1, h1⟩ := hfail 1
  obtain ⟨e2, h2⟩ := hfail 2
  obtain ⟨e3, h3⟩ := hfail 3
  have s3 : execute_step_with_retries action 3 1 3 =
      ⟨1, [], .permanentFailure (some e3)⟩ := by
    rw [execute_step_with_retries]
    norm_num [h3, handle_step_error]
  have s2 : execute_step_with_retries action 3 1 2 =
      ⟨2, [120], .permanentFailure (some e3)⟩ := by
    rw [execute_step_with_retries]
    norm_num [h2, s3, handle_step_error]
  have s1 : execute_step_with_retries action 3 1 1 =
      ⟨3, [60, 120], .permanentFailure (some e3)⟩ := by
    rw [execute_step_with_retries]
    norm_num [h1, s2, handle_step_error]
  rw [s1]
  exact ⟨rfl, rfl, e3, h3, rfl⟩

/-- Witness for C4 at the concrete always-failing action returning error 0. -/
theorem C4_retry_three_attempts_witness :
    (execute_step_with_retries (fun _ => (Except.error 0 : Except Nat Unit)) 3 1 1).calls = 3 ∧
      (execute_step_with_retries (fun _ => (Except.error 0 : Except Nat Unit)) 3 1 1).sleeps
        = [60, 120] ∧
      ∃ e, (fun _ => (Except.error 0 : Except Nat Unit)) 3 = .error e ∧
        (execute_step_with_retries (fun _ => (Except.error 0 : Except Nat Unit)) 3 1 1).outcome
          = .permanentFailure (some e) :=
  C4_retry_three_attempts (fun _ => (Except.error 0 : Except Nat Unit))
    (fun _ => ⟨0, rfl⟩)

/-- C2 (code bug evidence): at the unrecognized category key
youtube_upload_failback — absent from the default failback table, and the
very key the upload stage passes — handle_api_error raises TypeError, not
the original error, so the caller receives a different exception and the
original PublishError is lost. -/
theorem C2_unrecognized_key_raises_type_error :
    handle_api_error "youtube_upload" "PublishError" "youtube_upload_failback"
        default_failback_mechanisms = .raised .typeError ∧
      FailbackOutcome.raised (PyErr.typeError) ≠
        FailbackOutcome.raised (PyErr.orig "PublishError") := by
  constructor
  · rfl
  · decide

/-- C1 (code bug evidence): under the default configuration (youtube and
tiktok enabled, instagram disabled, no upload key in the failback table),
when the upload to every enabled platform fails with PublishError, the run
does not complete with a partial-failure outcome and the feedback stage is
not attempted: the upload stage's except-handler calls handle_api_error,
which raises TypeError, and that exception propagates out of
run_full_cycle. -/
theorem C1_publish_failure_aborts_run :
    run_cycle_publish_tail default_failback_mechanisms
        (fun _ => (Except.error "PublishError" : Except String String)) id
        [("youtube", true), ("tiktok", true), ("instagram", false)] true =
      .error .typeError := by
  rfl

/-- C9: with monetization globally disabled, apply_monetization_strategies
returns its script object and metadata object unchanged, whatever the
strategy list, the per-strategy flags, the platform ad configuration and
the strategy bodies do. -/
theorem C9_monetization_disabled_identity {S M : Type}
    (strategies : List String)
    (ad_revenue_optimization_enabled platform_monetization_enabled : Bool)
    (platform_ad_break_strategy : Option String)
    (affiliate_marketing_enabled digital_product_promotion_enabled : Bool)
    (sponsorship_tags_enabled : Bool)
    (incorporate_ad_breaks : M → M)
    (incorporate_affiliate_links : S → M → S × M)
    (incorporate_digital_product_promotion : S → M → S × M)
    (apply_sponsorship_tags : M → M)
    (script_object : S) (metadata_object : M) :
    apply_monetization_strategies false strategies
        ad_revenue_optimization_enabled platform_monetization_enabled
        platform_ad_break_strategy affiliate_marketing_enabled
        digital_product_promotion_enabled sponsorship_tags_enabled
        incorporate_ad_breaks incorporate_affiliate_links
        incorporate_digital_product_promotion apply_sponsorship_tags
        script_object metadata_object = (script_object, metadata_object) :=
  rfl

/-- The scoring pass only writes the computed fields: stripping them undoes
it. -/
theorem stripComputed_score_trend (cfg : TrendAnalysisConfig) (g : Nat → Nat)
    (k : Nat) (t : Trend) :
    stripComputed (score_trend cfg g k t) = stripComputed t := by
  by_cases h : cfg.time_series_analysis_enabled <;>
    simp [score_trend, stripComputed, h]

/-- The scoring pass preserves the title. -/
theorem score_trend_title (cfg : TrendAnalysisConfig) (g : Nat → Nat)
    (k : Nat) (t : Trend) : (score_trend cfg g k t).title = t.title := by
  by_cases h : cfg.time_series_analysis_enabled <;> simp [score_trend, h]

/-- Up to the in-place enrichment, the filtered list is a sublist of the
input, for every starting draw index. -/
theorem filter_and_score_go_sublist (cfg : TrendAnalysisConfig) (g : Nat → Nat) :
    ∀ (l : List Trend) (k : Nat),
      List.Sublist ((filter_and_score_go cfg g l k).map stripComputed)
        (l.map stripComputed) := by
  intro l
  induction l with
  | nil =>
    intro k
    simp [filter_and_score_go]
  | cons t rest ih =>
    intro k
    cases hp : passes_filters cfg t with
    | true =>
      simp only [filter_and_score_go, hp, if_true, List.map_cons,
        stripComputed_score_trend]
      exact List.Sublist.cons₂ _ (ih _)
    | false =>
      simp only [filter_and_score_go, hp, Bool.false_eq_true, if_false,
        List.map_cons]
      exact List.Sublist.cons _ (ih k)

/-- C10: for every configuration, random stream and input list, the list
returned by _filter_and_score_trends is an order-preserving subsequence of
the input modulo the fields the pass itself writes in place: it only drops
candidates, never adds, duplicates or reorders them. -/
theorem C10_filter_is_subsequence (cfg : TrendAnalysisConfig) (g : Nat → Nat)
    (trends : List Trend) :
    List.Sublist ((filter_and_score_trends cfg g trends).map stripComputed)
      (trends.map stripComputed) :=
  filter_and_score_go_sublist cfg g trends 0

/-- A trend passing the filters has no configured excluded keyword as a raw
substring of its lowercased title. -/
theorem passes_filters_exclusions (cfg : TrendAnalysisConfig) (t : Trend)
    (h : passes_filters cfg t = true) :
    ∀ ex ∈ cfg.exclude_topics_containing,
      strContains (strToLower t.title) ex = false := by
  intro ex hex
  by_contra hc
  have hany : cfg.exclude_topics_containing.any
      (fun ex_word => strContains (strToLower t.title) ex_word) = true :=
    List.any_eq_true.mpr ⟨ex, hex, by simpa using hc⟩
  simp only [passes_filters] at h
  rw [hany] at h
  simp at h

/-- Every element of the filtered list is the enrichment of some input
element that passed the filters. -/
theorem mem_filter_and_score_go (cfg : TrendAnalysisConfig) (g : Nat → Nat) :
    ∀ (l : List Trend) (k : Nat) (t : Trend),
      t ∈ filter_and_score_go cfg g l k →
      ∃ t0 k0, t0 ∈ l ∧ passes_filters cfg t0 = true ∧
        t = score_trend cfg g k0 t0 := by
  intro l
  induction l with
  | nil =>
    intro k t h
    simp [filter_and_score_go] at h
  | cons a rest ih =>
    intro k t h
    cases hp : passes_filters cfg a with
    | true =>
      simp only [filter_and_score_go, hp, if_true] at h
      rcases List.mem_cons.mp h with rfl | hmem
      · exact ⟨a, k, List.mem_cons_self a rest, hp, rfl⟩
      · obtain ⟨t0, k0, hl, hpass, heq⟩ := ih _ t hmem
        exact ⟨t0, k0, List.mem_cons_of_mem a hl, hpass, heq⟩
    | false =>
      simp only [filter_and_score_go, hp, Bool.false_eq_true, if_false] at h
      obtain ⟨t0, k0, hl, hpass, heq⟩ := ih k t h
      exact ⟨t0, k0, List.mem_cons_of_mem a hl, hpass, heq⟩

/-- C5 as amended: _filter_and_score_trends never returns a candidate whose
lowercased title contains a configured excluded keyword taken verbatim —
the source lowercases only the title, not the keyword, so exclusion
containment is case-sensitive in the keyword and a mixed-case configured
keyword does not exclude. -/
theorem C5_amended_exclusion (cfg : TrendAnalysisConfig) (g : Nat → Nat)
    (trends : List Trend) (t : Trend) (ex : String)
    (ht : t ∈ filter_and_score_trends cfg g trends)
    (hex : ex ∈ cfg.exclude_topics_containing) :
    strContains (strToLower t.title) ex = false := by
  obtain ⟨t0, k0, _, hpass, rfl⟩ :=
    mem_filter_and_score_go cfg g trends 0 t ht
  rw [score_trend_title]
  exact passes_filters_exclusions cfg t0 hpass ex hex

/-- C5 counterexample: with excluded keyword Crypto configured, the
candidate titled crypto crash incoming is returned by
_filter_and_score_trends although its title contains the configured
keyword under the case-insensitive test the claim asserts. -/
theorem C5_counterexample :
    (filter_and_score_trends cfgC5 (fun _ => 0) [trendC5]).map Trend.title =
        ["crypto crash incoming"] ∧
      "Crypto" ∈ cfgC5.exclude_topics_containing ∧
      strContains (strToLower "crypto crash incoming") (strToLower "Crypto") = true := by
  refine ⟨?_, by decide, by decide⟩
  rfl

/-- Witness for the amended C5 at a concrete kept candidate and keyword. -/
theorem C5_amended_exclusion_witness :
    score_trend cfgC5W (fun _ => 0) 0 trendC5W ∈
        filter_and_score_trends cfgC5W (fun _ => 0) [trendC5W] ∧
      "ban" ∈ cfgC5W.exclude_topics_containing ∧
      strContains
        (strToLower (score_trend cfgC5W (fun _ => 0) 0 trendC5W).title)
        "ban" = false := by
  have hpass : passes_filters cfgC5W trendC5W = true := by decide
  have hmem : score_trend cfgC5W (fun _ => 0) 0 trendC5W ∈
      filter_and_score_trends cfgC5W (fun _ => 0) [trendC5W] := by
    simp only [filter_and_score_trends, filter_and_score_go, hpass, if_true]
    exact List.mem_cons_self _ _
  exact ⟨hmem, by decide,
    C5_amended_exclusion cfgC5W (fun _ => 0) [trendC5W]
      (score_trend cfgC5W (fun _ => 0) 0 trendC5W) "ban" hmem (by decide)⟩

/-- C6 counterexample: candidates were fetched but all are filtered out, so
the scored list passed to winner selection is empty; the source then
returns None — no fallback topic is substituted — and run_full_cycle ends
the cycle with return False instead of proceeding. -/
theorem C6_counterexample :
    analyze_trends_and_select_topic cfgC6 (fun _ => 0) true
        "use_cached_or_fallback_topics_high_priority" [trendC6] = none ∧
      run_cycle_step1_aborts
        (analyze_trends_and_select_topic cfgC6 (fun _ => 0) true
          "use_cached_or_fallback_topics_high_priority" [trendC6]) = true := by
  constructor
  · rfl
  · rfl

/-- C6 as amended: when the scored list passed to winner selection is empty
although candidates were fetched, selection returns no topic and the
orchestrator aborts the run (run_full_cycle returns False); a fallback
topic is substituted only in the earlier branch where no candidates were
fetched at all and the configured failback strategy contains
use_cached_or_fallback_topics. -/
theorem C6_amended_empty_scored_aborts (cfg : TrendAnalysisConfig)
    (g : Nat → Nat) (strategy : String) (trends : List Trend) :
    (trends ≠ [] → filter_and_score_trends cfg g trends = [] →
      analyze_trends_and_select_topic cfg g true strategy trends = none ∧
        run_cycle_step1_aborts
          (analyze_trends_and_select_topic cfg g true strategy trends) = true) ∧
      (trends = [] → strContains strategy "use_cached_or_fallback_topics" = true →
        analyze_trends_and_select_topic cfg g true strategy trends =
          some .fallbackNoTrendsFound) := by
  constructor
  · intro hne hemp
    have hie : trends.isEmpty = false := by
      cases trends with
      | nil => exact absurd rfl hne
      | cons a l => rfl
    have h1 : analyze_trends_and_select_topic cfg g true strategy trends = none := by
      simp [analyze_trends_and_select_topic, hie, hemp, select_winner]
    exact ⟨h1, by rw [run_cycle_step1_aborts, h1]; rfl⟩
  · intro hempty hstr
    subst hempty
    simp [analyze_trends_and_select_topic, hstr]

/-- Witness for the amended C6: the empty-scored-list case at the C6
counterexample input, and the fetched-nothing fallback case at the default
configured strategy string. -/
theorem C6_amended_empty_scored_aborts_witness :
    ([trendC6] ≠ ([] : List Trend)) ∧
      filter_and_score_trends cfgC6 (fun _ => 0) [trendC6] = [] ∧
      analyze_trends_and_select_topic cfgC6 (fun _ => 0) true "s" [trendC6] = none ∧
      strContains "use_cached_or_fallback_topics_high_priority"
        "use_cached_or_fallback_topics" = true ∧
      analyze_trends_and_select_topic cfgC6 (fun _ => 0) true
        "use_cached_or_fallback_topics_high_priority" [] =
        some .fallbackNoTrendsFound :=
  ⟨by decide, by rfl,
    ((C6_amended_empty_scored_aborts cfgC6 (fun _ => 0) "s" [trendC6]).1
      (by decide) (by rfl)).1,
    by decide,
    (C6_amended_empty_scored_aborts cfgC6 (fun _ => 0)
      "use_cached_or_fallback_topics_high_priority" []).2 rfl (by decide)⟩

end AutoCreatorX
